import Mathlib

/-!
Verification of the HTML extraction logic of `src/server.js` (web_analyser).

The file shallowly embeds the extraction functions of the source:

* `getTagContent` (src/server.js lines 27-31) uses
  `new RegExp(`<${tagName}[^>]*>([\s\S]*?)<\/${tagName}>`, 'i')`.
  The pattern string is a JavaScript template literal, where the escape
  sequence `\s` denotes the plain character `s` (and `\S` denotes `S`);
  only `\\/` survives as the regex escape `\/`.  The regex the source
  actually compiles is therefore `<title[^>]*>([sS]*?)<\/title>` for tag
  name `title`: the capture group is a lazy star over the two-character
  class `[sS]`, not over "any character".  The embedding reproduces this.
* `getMetaContent` (lines 40-49) uses
  `<meta[^>]*name=["']KEY["'][^>]*content=["']([^"']*)["'][^>]*>` with the
  `i` flag, first with `name=`, then with `property=`.
* `countWordsInPTags` (lines 58-70) repeatedly matches
  `/<p[^>]*>(.*?)<\/?p>/gi`, strips `<[^>]+>` from each captured span,
  and counts whitespace-separated tokens.
* `getDocumentTitle` (lines 73-79), the unused top level `title`/
  `metaDescription` pair (lines 81-83), `handleAnalysis` (lines 92-123)
  and the `/analyze` route of the server (lines 132-143).

Regexes are embedded as deterministic scanning functions over `List Char`.
All quantified sub-patterns of the source's regexes are character classes,
so JavaScript's backtracking has a direct deterministic reading:

* `[^>]*` followed by a literal: try the longest class-run first and
  back off one character at a time (`descend` below);
* `[^>]*>`, i.e. a greedy class star followed by the very character the
  class excludes: skip to the first `>` (no backtracking is possible);
* `([^"']*)["']`: the capture is the maximal quote-free run (shorter
  choices put a non-quote in front of the closing `["']`, so they all fail);
* a lazy star (`([sS]*?)`, `(.*?)`) before a closing literal: extend one
  class character at a time, testing the closing literal first.

Matching with the `i` flag is ASCII case folding (every pattern in the
source is ASCII).  JavaScript string indices/lengths and Lean `String`s
differ on astral code points; the source only ever compares a string's
`.length` with the `.length` of the same string, so nothing here depends
on that difference.
-/

/-- ASCII case folding, the canonicalisation the `i` regex flag performs on
the ASCII patterns of the source. -/
def asciiLower (c : Char) : Char :=
  if 65 ≤ c.toNat ∧ c.toNat ≤ 90 then Char.ofNat (c.toNat + 32) else c

/-- Case-insensitive character comparison (regex `i` flag). -/
def ciEq (a b : Char) : Bool := asciiLower a == asciiLower b

/-- Match a literal pattern case-insensitively at the head of the input,
returning the rest of the input. -/
def litCi : List Char → List Char → Option (List Char)
  | [], l => some l
  | _ :: _, [] => none
  | c :: w, d :: l => if ciEq c d then litCi w l else none

/-- The character class `["']`. -/
def isQuote (c : Char) : Bool := c == '"' || c == '\''

/-- Regex step `["']`: one quote character. -/
def quoteStep : List Char → Option (List Char)
  | c :: l => if isQuote c then some l else none
  | [] => none

/-- Regex step `[^>]*>`: the greedy star cannot eat a `>`, so this matches
exactly up to and including the first `>`, and fails when there is none. -/
def gtStep (l : List Char) : Option (List Char) :=
  match l.dropWhile (fun c => c != '>') with
  | '>' :: r => some r
  | _ => none

/-- Backtracking order of a greedy star: try `f n` (the longest run) first,
then back off to `f (n-1)`, ..., `f 0`. -/
def descend {α : Type} (f : Nat → Option α) : Nat → Option α
  | 0 => f 0
  | n + 1 =>
    match f (n + 1) with
    | some v => some v
    | none => descend f n

/-- The tail `content=["']([^"']*)["'][^>]*>` of the meta pattern, tried at
one particular alignment.  Returns the capture group. -/
def contentAttempt (l : List Char) : Option (List Char) :=
  (litCi "content=".toList l).bind fun l1 =>
  (quoteStep l1).bind fun l2 =>
  (quoteStep (l2.dropWhile (fun c => !isQuote c))).bind fun l3 =>
  (gtStep l3).bind fun _ =>
  some (l2.takeWhile (fun c => !isQuote c))

/-- `[^>]*content=["']([^"']*)["'][^>]*>`: greedy star, so the alignments
of `content=` are tried from the rightmost one inside the `[^>]` run. -/
def contentPart (l : List Char) : Option (List Char) :=
  descend (fun j => contentAttempt (l.drop j)) (l.takeWhile (fun c => c != '>')).length

/-- `ATTR["']KEY["']` followed by `contentPart`, tried at one alignment
(`ATTR` is `name=` or `property=`, `KEY` the key embedded in the pattern). -/
def metaAttempt (attr key : List Char) (l : List Char) : Option (List Char) :=
  (litCi attr l).bind fun l1 =>
  (quoteStep l1).bind fun l2 =>
  (litCi key l2).bind fun l3 =>
  (quoteStep l3).bind fun l4 =>
  contentPart l4

/-- The whole meta pattern `<meta[^>]*ATTR["']KEY["'][^>]*content=["']
([^"']*)["'][^>]*>` anchored at the start of `l` (first `[^>]*` greedy). -/
def metaMatchAt (attr key : List Char) (l : List Char) : Option (List Char) :=
  (litCi "<meta".toList l).bind fun l1 =>
  descend (fun j => metaAttempt attr key (l1.drop j)) (l1.takeWhile (fun c => c != '>')).length

/-- `String.prototype.match`: try the pattern at every position, leftmost
match wins. -/
def scanMeta (attr key : List Char) : List Char → Option (List Char)
  | [] => none
  | d :: l =>
    match metaMatchAt attr key (d :: l) with
    | some v => some v
    | none => scanMeta attr key l

/-- `getMetaContent(html, key)` of src/server.js lines 40-49: the `name=`
pattern first, the `property=` pattern as fallback, `''` when neither
matches.  The source interpolates the caller's key into `new RegExp`, so
in general regex metacharacters and escapes in the key are live; this
embedding treats the key as a literal character sequence, which agrees
with the source exactly for keys made of regex-literal characters
(`regexPlainChar` below) — in particular for every key the program
itself passes (`description`, `og:title`, `title`).  Theorems that
quantify over keys carry a `regexPlainChar` hypothesis to stay inside
this faithful domain. -/
def getMetaContent (html key : String) : String :=
  match scanMeta "name=".toList key.toList html.toList with
  | some v => String.mk v
  | none =>
    match scanMeta "property=".toList key.toList html.toList with
    | some v => String.mk v
    | none => ""

/-- The character class `[sS]` — what the template literal `[\s\S]` of
src/server.js line 28 actually denotes (`\s` is the non-escape `s`). -/
def ssChar (c : Char) : Bool := c == 's' || c == 'S'

/-- Lazy star `([sS]*?)` before the closing literal: test the closing
literal first, else extend the capture by one `[sS]` character. -/
def lazySS (close : List Char) : List Char → Option (List Char)
  | [] =>
    match litCi close [] with
    | some _ => some []
    | none => none
  | d :: l =>
    match litCi close (d :: l) with
    | some _ => some []
    | none => if ssChar d then (lazySS close l).map (d :: ·) else none

/-- The pattern `<TAG[^>]*>([sS]*?)<\/TAG>` anchored at the start of `l`. -/
def tagMatchAt (tag : List Char) (l : List Char) : Option (List Char) :=
  (litCi ('<' :: tag) l).bind fun l1 =>
  (gtStep l1).bind fun l2 =>
  lazySS ('<' :: '/' :: (tag ++ ['>'])) l2

/-- Leftmost match of the tag-content pattern. -/
def scanTag (tag : List Char) : List Char → Option (List Char)
  | [] => none
  | d :: l =>
    match tagMatchAt tag (d :: l) with
    | some v => some v
    | none => scanTag tag l

/-- JavaScript whitespace (`\s`, `trim`): space, tab, LF, VT, FF, CR, NBSP,
and the Unicode space separators, line separators and BOM. -/
def isJsWs (c : Char) : Bool :=
  let n := c.toNat
  n == 32 || (9 ≤ n && n ≤ 13) || n == 160 || n == 0x1680 ||
  (0x2000 ≤ n && n ≤ 0x200A) || n == 0x2028 || n == 0x2029 ||
  n == 0x202F || n == 0x205F || n == 0x3000 || n == 0xFEFF

/-- `String.prototype.trim`. -/
def jsTrimL (l : List Char) : List Char :=
  ((l.dropWhile isJsWs).reverse.dropWhile isJsWs).reverse

/-- `String.prototype.trim` on `String`. -/
def jsTrim (s : String) : String := String.mk (jsTrimL s.toList)

/-- `getTagContent(html, tagName)` of src/server.js lines 27-31:
`match ? match[1].trim() : ''` against the (template-literal-mangled)
pattern `<TAG[^>]*>([sS]*?)<\/TAG>` with the `i` flag. -/
def getTagContent (html tag : String) : String :=
  match scanTag tag.toList html.toList with
  | some v => jsTrim (String.mk v)
  | none => ""

/-- `getDocumentTitle(html)` of src/server.js lines 73-79: `<title>` tag
content, else the `og:title` meta value, else the `title` meta value
(JavaScript truthiness on strings is non-emptiness). -/
def getDocumentTitle (html : String) : String :=
  let titleTag := getTagContent html "title"
  if titleTag ≠ "" then titleTag
  else
    let ogTitle := getMetaContent html "og:title"
    if ogTitle ≠ "" then ogTitle
    else getMetaContent html "title"

/-- The class `.` of `/<p[^>]*>(.*?)<\/?p>/gi`: without the `s` flag the
dot matches everything except the line terminators LF, CR, U+2028, U+2029. -/
def dotChar (c : Char) : Bool := !(c == '\n' || c == '\r' || c == '\u2028' || c == '\u2029')

/-- The closing literal `<\/?p>`: the greedy `?` tries `/` first. -/
def closePTag : List Char → Option (List Char)
  | '<' :: '/' :: l =>
    (match litCi "p>".toList l with
     | some r => some r
     | none => litCi "p>".toList ('/' :: l))
  | '<' :: l => litCi "p>".toList l
  | _ => none

/-- Lazy star `(.*?)` before `<\/?p>`: test the closing literal first, else
extend the capture by one `.` character.  Returns the capture and the rest
of the input after the match (the `lastIndex` of the `g`-flag loop). -/
def lazyDot : List Char → Option (List Char × List Char)
  | [] =>
    match closePTag [] with
    | some r => some ([], r)
    | none => none
  | d :: l =>
    match closePTag (d :: l) with
    | some r => some ([], r)
    | none => if dotChar d then (lazyDot l).map (fun p => (d :: p.1, p.2)) else none

/-- `<p[^>]*>(.*?)<\/?p>` anchored at the start of `l`. -/
def pMatchAt (l : List Char) : Option (List Char × List Char) :=
  (litCi "<p".toList l).bind fun l1 =>
  (gtStep l1).bind fun l2 =>
  lazyDot l2

/-- One `regex.exec` step of the `g`-flag loop: leftmost match together
with the input remaining after it. -/
def scanP : List Char → Option (List Char × List Char)
  | [] => none
  | d :: l =>
    match pMatchAt (d :: l) with
    | some v => some v
    | none => scanP l

/-- Regex step `[^>]+>` (used by the `<[^>]+>` strip): at least one
non-`>` character, then the first `>`. -/
def tagGap (l : List Char) : Option (List Char) :=
  match l with
  | c :: _ => if c != '>' then gtStep l else none
  | [] => none

/-- `replace(/<[^>]+>/g, ' ')`: each match becomes a single space; a `<`
that starts no match is kept and scanning moves on by one character.
Fuelled recursion; every step consumes at least one character, so fuel
`l.length + 1` (as used by `stripTags`) is never exhausted. -/
def stripTagsF : Nat → List Char → List Char
  | 0, l => l
  | _ + 1, [] => []
  | f + 1, '<' :: l =>
    (match tagGap l with
     | some r => ' ' :: stripTagsF f r
     | none => '<' :: stripTagsF f l)
  | f + 1, c :: l => c :: stripTagsF f l

/-- `text.replace(/<[^>]+>/g, ' ')` of src/server.js line 64. -/
def stripTags (l : List Char) : List Char := stripTagsF (l.length + 1) l

/-- Split at every whitespace character (pieces may be empty).  Splitting
on single characters and discarding empty pieces yields exactly the tokens
of JavaScript's `split(/\s+/)` followed by `filter(Boolean)`. -/
def splitWs : List Char → List (List Char)
  | [] => [[]]
  | c :: l =>
    if isJsWs c then [] :: splitWs l
    else
      match splitWs l with
      | w :: ws => (c :: w) :: ws
      | [] => [[c]]

/-- `text.trim().split(/\s+/).filter(Boolean).length` of src/server.js
line 66. -/
def tokenCount (l : List Char) : Nat :=
  ((splitWs (jsTrimL l)).filter (fun w => w ≠ [])).length

/-- The `while ((match = regex.exec(html)) !== null)` loop of
`countWordsInPTags`.  Fuelled; every match consumes at least one
character, so fuel `html.length + 1` is never exhausted. -/
def countWordsF : Nat → List Char → Nat
  | 0, _ => 0
  | f + 1, l =>
    match scanP l with
    | some (cap, rest) => tokenCount (stripTags cap) + countWordsF f rest
    | none => 0

/-- `countWordsInPTags(html)` of src/server.js lines 58-70. -/
def countWordsInPTags (html : String) : Nat :=
  countWordsF (html.toList.length + 1) html.toList

/-- The JSON object built in `handleAnalysis` (src/server.js lines
111-118). -/
structure AnalysisResult where
  statusCode : Nat
  metaTitle : String
  metaTitleLength : Nat
  metaDescription : String
  metaDescriptionLength : Nat
  wordCountInPTags : Nat
deriving DecidableEq, Repr

/-- The success path of `handleAnalysis` (src/server.js lines 107-118):
note that line 108 computes the title with `getTagContent(html, 'title')`,
not with `getDocumentTitle`. -/
def analyze (html : String) (status : Nat) : AnalysisResult :=
  let title := getTagContent html "title"
  let metaDescription := getMetaContent html "description"
  { statusCode := status
    metaTitle := title
    metaTitleLength := title.length
    metaDescription := metaDescription
    metaDescriptionLength := metaDescription.length
    wordCountInPTags := countWordsInPTags html }

/-- Outcome of `await fetch(targetUrl)` / `await response.text()`
(src/server.js lines 102-105), supplied by the environment: either a
status code with a body, or a thrown error whose `.message` is recorded
(`""` models a missing/empty message, which JavaScript's `||` replaces by
the generic fallback). -/
inductive FetchOutcome where
  | success (status : Nat) (body : String)
  | failure (message : String)
deriving DecidableEq, Repr

/-- The JSON value passed to `respond`: either the analysis object or a
single-field `{ error: msg }` object — never both. -/
inductive AnalyzeResponse where
  | ok (r : AnalysisResult)
  | err (msg : String)
deriving DecidableEq, Repr

/-- `handleAnalysis` (src/server.js lines 92-123).  `parsedProtocol` is
`(new URL(targetUrl)).protocol`; `none` models the `TypeError: Invalid
URL` thrown for an unparsable URL, which the `catch` turns into an error
response. -/
def handleAnalysis (parsedProtocol : Option String) (outcome : FetchOutcome) : AnalyzeResponse :=
  match parsedProtocol with
  | none => .err "Invalid URL"
  | some proto =>
    if proto = "http:" ∨ proto = "https:" then
      match outcome with
      | .success st body => .ok (analyze body st)
      | .failure msg =>
        .err (if msg = "" then "Failed to fetch or process the URL." else msg)
    else .err "Invalid protocol; only http and https are supported."

/-- An HTTP response of the `/analyze` route: the transport status code
written by `res.writeHead` and the JSON payload. -/
structure TransportResponse where
  statusCode : Nat
  payload : AnalyzeResponse
deriving DecidableEq, Repr

/-- The `GET /analyze` branch of the server (src/server.js lines 132-143).
`urlParam` is `searchParams.get('url')` (`none` = absent); a missing or
empty parameter is falsy and is answered with `writeHead(400)`, while
`handleAnalysis`'s callback always answers with `writeHead(200)`.
`parseProtocol` and `fetchUrl` model `new URL` and `fetch` for the run. -/
def serveAnalyze (urlParam : Option String) (parseProtocol : String → Option String)
    (fetchUrl : String → FetchOutcome) : TransportResponse :=
  match urlParam with
  | none => ⟨400, .err "Missing url parameter."⟩
  | some target =>
    if target = "" then ⟨400, .err "Missing url parameter."⟩
    else ⟨200, handleAnalysis (parseProtocol target) (fetchUrl target)⟩

/-- The string bindings in scope at module level when lines 81-83 of
src/server.js are evaluated: there is no module-scope variable `html`
(the only `html` is local to `handleAnalysis`, line 105), so the name
does not resolve. -/
def moduleScopeHtml : Option String := none

/-- Evaluation of the top-level statement
`const title = getDocumentTitle(html);` (src/server.js line 82): reading
an undeclared identifier throws a `ReferenceError`. -/
def topLevelTitle : Except String String :=
  match moduleScopeHtml with
  | some h => Except.ok (getDocumentTitle h)
  | none => Except.error "ReferenceError: html is not defined"

/-- Evaluation of the top-level statement
`const metaDescription = getMetaContent(html, 'description');`
(src/server.js line 83). -/
def topLevelMetaDescription : Except String String :=
  match moduleScopeHtml with
  | some h => Except.ok (getMetaContent h "description")
  | none => Except.error "ReferenceError: html is not defined"

/-- Characters that play no role in the meta-pattern syntax: not `<`, `>`,
`"`, `'` or `=`.  Attribute keys and values made of such characters are
what a well-formed simple meta tag contains. -/
def safeChar (c : Char) : Bool :=
  !(c == '<' || c == '>' || c == '"' || c == '\'' || c == '=')

/-- All characters safe. -/
def safeL (l : List Char) : Bool := l.all safeChar

/-- ASCII-lowercase a character list. -/
def lowerL (l : List Char) : List Char := l.map asciiLower

/-- ASCII-lowercase a string. -/
def asciiLowerStr (s : String) : String := String.mk (lowerL s.toList)

/-- A character the JavaScript regex engine reads as itself outside a
character class: neither a syntax character (`^ $ . | ? * + ( ) [ ] { }`)
nor a backslash starting an escape.  A key made only of such characters is
embedded into `new RegExp` as a plain literal, which is the domain on
which the literal-key embedding of `getMetaContent` is faithful to the
source's key interpolation. -/
def regexPlainChar (c : Char) : Bool :=
  !(c == '\\' || c == '^' || c == '$' || c == '.' || c == '|' || c == '?' || c == '*' ||
    c == '+' || c == '(' || c == ')' || c == '[' || c == ']' || c == '{' || c == '}')

/-! ### Helper lemmas about ASCII case folding -/

theorem toNat_charOfNat (n : Nat) (h : n.isValidChar) : (Char.ofNat n).toNat = n := by
  rw [Char.ofNat, dif_pos h]
  rfl

theorem char_toNat_inj {c d : Char} (h : c.toNat = d.toNat) : c = d :=
  Char.eq_of_val_eq (UInt32.ext h)

theorem toNat_asciiLower (c : Char) :
    (asciiLower c).toNat =
      if 65 ≤ c.toNat ∧ c.toNat ≤ 90 then c.toNat + 32 else c.toNat := by
  unfold asciiLower
  split
  · next h => exact toNat_charOfNat _ (Or.inl (by omega))
  · rfl

theorem asciiLower_idem (c : Char) : asciiLower (asciiLower c) = asciiLower c := by
  apply char_toNat_inj
  have h := toNat_asciiLower c
  by_cases hc : 65 ≤ c.toNat ∧ c.toNat ≤ 90
  · rw [if_pos hc] at h
    rw [toNat_asciiLower (asciiLower c), h, if_neg (by omega)]
  · rw [if_neg hc] at h
    rw [toNat_asciiLower (asciiLower c), h, if_neg hc]

theorem lowerL_cons (c : Char) (w : List Char) :
    lowerL (c :: w) = asciiLower c :: lowerL w := rfl

theorem litCi_lower (w : List Char) : ∀ l, litCi (lowerL w) l = litCi w l := by
  induction w with
  | nil => intro l; rfl
  | cons c w ih =>
    intro l
    cases l with
    | nil => rfl
    | cons d l =>
      rw [lowerL_cons]
      show (if ciEq (asciiLower c) d then litCi (lowerL w) l else none) =
        (if ciEq c d then litCi w l else none)
      have hci : ciEq (asciiLower c) d = ciEq c d := by
        unfold ciEq
        rw [asciiLower_idem]
      rw [hci, ih l]

theorem metaAttempt_lower (attr key l : List Char) :
    metaAttempt attr (lowerL key) l = metaAttempt attr key l := by
  simp only [metaAttempt, litCi_lower]

theorem metaMatchAt_lower (attr key l : List Char) :
    metaMatchAt attr (lowerL key) l = metaMatchAt attr key l := by
  unfold metaMatchAt
  simp only [metaAttempt_lower]

theorem scanMeta_lower (attr key : List Char) : ∀ l, scanMeta attr (lowerL key) l = scanMeta attr key l := by
  intro l
  induction l with
  | nil => rfl
  | cons d l ih =>
    show (match metaMatchAt attr (lowerL key) (d :: l) with
          | some v => some v
          | none => scanMeta attr (lowerL key) l) = _
    rw [metaMatchAt_lower, ih]
    rfl

/-! ### The captured paragraph span satisfies the dot class -/

theorem lazyDot_cap_dot : ∀ (l cap rest : List Char), lazyDot l = some (cap, rest) →
    ∀ c ∈ cap, dotChar c = true := by
  intro l
  induction l with
  | nil =>
    intro cap rest h
    simp [lazyDot, closePTag] at h
  | cons d l ih =>
    intro cap rest h
    rw [lazyDot] at h
    cases hc : closePTag (d :: l) with
    | some r =>
      rw [hc] at h
      simp only [Option.some.injEq, Prod.mk.injEq] at h
      intro c hmem
      rw [← h.1] at hmem
      simp at hmem
    | none =>
      rw [hc] at h
      by_cases hd : dotChar d
      · rw [if_pos hd] at h
        cases hl : lazyDot l with
        | none => rw [hl] at h; simp at h
        | some p =>
          rw [hl] at h
          simp only [Option.map_some', Option.some.injEq, Prod.mk.injEq] at h
          intro c hmem
          rw [← h.1] at hmem
          cases hmem with
          | head => exact hd
          | tail _ hm => exact ih p.1 p.2 (by rw [hl]) c hm
      · rw [if_neg hd] at h
        simp at h

/-! ### Claim theorems -/

/-- C1: the claim says the tag content extractor returns the trimmed inner
text of the first `<title>` occurrence.  In fact the template literal turns
`[\s\S]` into the class `[sS]`, so the compiled pattern only captures runs
of `s`/`S`: on `<title>Hello</title>` the extractor (and the title
fallback chain) returns the empty string, while an all-`s` title is the
only kind it can return (untouched by `trim`). -/
theorem C1_title_extractor_at_failing_input :
    getTagContent "<title>Hello</title>" "title" = "" ∧
    getTagContent "<title>ssS</title>" "title" = "ssS" ∧
    getDocumentTitle "<title>Hello</title>" = "" := by
  refine ⟨by decide, by decide, by decide⟩

/-- C2 counterexample: the claim asserts that evaluating the module's top
level does not fail; in fact line 82 reads the undeclared identifier
`html`, so its evaluation throws a `ReferenceError` instead of producing a
value. -/
theorem C2_cx_top_level_fails :
    topLevelTitle.isOk = false ∧ topLevelMetaDescription.isOk = false :=
  ⟨rfl, rfl⟩

/-- C2 (amended): the top-level `title`/`metaDescription` pair is dead
code referencing the undefined `html` variable and contributes nothing to
any analysis result — which is computed afresh from the request's own
HTML — but evaluating the module's top level fails with a
`ReferenceError` rather than succeeding. -/
theorem C2_top_level_pair_dead_but_throws (html : String) (status : Nat) :
    topLevelTitle = Except.error "ReferenceError: html is not defined" ∧
    topLevelMetaDescription = Except.error "ReferenceError: html is not defined" ∧
    analyze html status =
      { statusCode := status
        metaTitle := getTagContent html "title"
        metaTitleLength := (getTagContent html "title").length
        metaDescription := getMetaContent html "description"
        metaDescriptionLength := (getMetaContent html "description").length
        wordCountInPTags := countWordsInPTags html } :=
  ⟨rfl, rfl, rfl⟩

/-- C3: the claim says the orchestrator obtains `metaTitle` from the Title
Resolver's fallback chain (`getDocumentTitle`).  Line 108 of the source
instead calls `getTagContent(html, 'title')` directly: on HTML whose only
title signal is an `og:title` meta tag the orchestrator produces an empty
`metaTitle` even though the fallback chain resolves `Y`. -/
theorem C3_orchestrator_skips_fallback_chain :
    analyze "<meta property=\"og:title\" content=\"Y\">" 200 =
      { statusCode := 200, metaTitle := "", metaTitleLength := 0,
        metaDescription := "", metaDescriptionLength := 0, wordCountInPTags := 0 } ∧
    getDocumentTitle "<meta property=\"og:title\" content=\"Y\">" = "Y" := by
  refine ⟨by decide, by decide⟩

/-- C6: the three concrete test vectors of the Paragraph Word Counter. -/
theorem C6_word_counter_test_vectors :
    countWordsInPTags "<p>hello world</p>" = 2 ∧
    countWordsInPTags "<p>a <b>b</b> c</p>" = 3 ∧
    countWordsInPTags "no paragraphs here" = 0 := by
  refine ⟨by decide, by decide, by decide⟩

/-- C7: in every AnalysisResult the stored lengths are the lengths of the
stored strings (the source computes `title.length` and
`metaDescription.length` from the very strings it stores). -/
theorem C7_length_invariant (html : String) (status : Nat) :
    (analyze html status).metaTitleLength = (analyze html status).metaTitle.length ∧
    (analyze html status).metaDescriptionLength = (analyze html status).metaDescription.length :=
  ⟨rfl, rfl⟩

/-- C8: for a parsed URL whose protocol is neither `http:` nor `https:`,
`handleAnalysis` answers with exactly the invalid-protocol error object,
independently of what any fetch would return (the fetch is never
consulted). -/
theorem C8_invalid_protocol_no_fetch (proto : String) (outcome : FetchOutcome)
    (h1 : proto ≠ "http:") (h2 : proto ≠ "https:") :
    handleAnalysis (some proto) outcome =
      AnalyzeResponse.err "Invalid protocol; only http and https are supported." := by
  simp only [handleAnalysis]
  rw [if_neg]
  intro h
  cases h with
  | inl h => exact h1 h
  | inr h => exact h2 h

/-- C8 witness: a concrete `ftp:` request is rejected even when the
environment would have answered the fetch successfully. -/
theorem C8_invalid_protocol_no_fetch_witness :
    handleAnalysis (some "ftp:") (FetchOutcome.success 200 "<p>body</p>") =
      AnalyzeResponse.err "Invalid protocol; only http and https are supported." :=
  C8_invalid_protocol_no_fetch "ftp:" (FetchOutcome.success 200 "<p>body</p>")
    (by decide) (by decide)

/-- C9 counterexample: the claim says every failure of a `GET /analyze`
request is sent with transport status 200; a request with a missing `url`
parameter is a failure (it is answered with an error payload) but the
server writes transport status 400 for it (line 135). -/
theorem C9_cx_missing_url_is_400 :
    serveAnalyze none (fun _ => none) (fun _ => FetchOutcome.failure "") =
      ⟨400, AnalyzeResponse.err "Missing url parameter."⟩ :=
  rfl

/-- C9 (amended): failures detected inside `handleAnalysis` (invalid
scheme, unparsable URL, fetch failure) are surfaced as JSON error payloads
with transport status 200, but a missing or empty `url` parameter is
rejected with transport status 400. -/
theorem C9_transport_status (pf : String → Option String) (f : String → FetchOutcome) :
    (∀ t : String, t ≠ "" → (serveAnalyze (some t) pf f).statusCode = 200) ∧
    (serveAnalyze none pf f).statusCode = 400 ∧
    (serveAnalyze (some "") pf f).statusCode = 400 := by
  refine ⟨fun t ht => ?_, rfl, rfl⟩
  simp only [serveAnalyze]
  rw [if_neg ht]

/-- C9 witness: a present (ftp-scheme) url parameter is answered with
transport status 200 even though the payload is an error object. -/
theorem C9_transport_status_witness :
    (serveAnalyze (some "ftp://host") (fun _ => some "ftp:")
      (fun _ => FetchOutcome.failure "boom")).statusCode = 200 :=
  (C9_transport_status (fun _ => some "ftp:") (fun _ => FetchOutcome.failure "boom")).1
    "ftp://host" (by decide)

/-- C10: the span pattern `<p[^>]*>(.*?)<\/?p>` captures through the dot
class, which excludes line terminators, so a captured paragraph span never
contains a newline; a paragraph whose inner content spans lines is never
matched and contributes no words. -/
theorem C10_p_span_has_no_newline :
    (∀ l cap rest : List Char, pMatchAt l = some (cap, rest) → ('\n' : Char) ∉ cap) ∧
    countWordsInPTags "<p>one\ntwo</p>" = 0 := by
  constructor
  · intro l cap rest h hmem
    unfold pMatchAt at h
    rw [Option.bind_eq_some] at h
    obtain ⟨l1, -, h⟩ := h
    rw [Option.bind_eq_some] at h
    obtain ⟨l2, -, h⟩ := h
    have := lazyDot_cap_dot l2 cap rest h '\n' hmem
    simp [dotChar] at this
  · decide

/-- C10 witness: a concrete successful single-line match, whose capture
therefore contains no newline. -/
theorem C10_p_span_has_no_newline_witness : ('\n' : Char) ∉ "hi".toList :=
  C10_p_span_has_no_newline.1 "<p>hi</p>".toList "hi".toList [] (by decide)

/-- C4 counterexample: the claim says the key is compared case-sensitively
against the `name` value, so a meta tag whose name differs from the key
only in case is never matched; in fact the `i` flag applies to the whole
pattern, key included, and such a tag is matched. -/
theorem C4_cx_key_matches_other_case :
    getMetaContent "<meta name=\"Description\" content=\"cased\">" "description" = "cased" := by
  decide

/-- C4 (amended): the `i` flag makes the whole pattern case-insensitive,
key included: for every key consisting of regex-literal characters (the
key is interpolated into `new RegExp`, so only such keys denote
themselves), replacing the caller's key by its ASCII-lowercase form never
changes the result of the Meta Attribute Extractor, and a tag whose
attribute value differs from the key only in ASCII case does match. -/
theorem C4_key_is_case_insensitive :
    (∀ html key : String, key.toList.all regexPlainChar = true →
      getMetaContent html (asciiLowerStr key) = getMetaContent html key) ∧
    getMetaContent "<meta name=\"VIEWPORT\" content=\"wide\">" "viewport" = "wide" := by
  constructor
  · intro html key _
    unfold getMetaContent
    have hl : (asciiLowerStr key).toList = lowerL key.toList := rfl
    rw [hl, scanMeta_lower, scanMeta_lower]
  · decide

/-- C4 witness: a concrete regex-literal key in upper case finds the same
content as its lowercase form. -/
theorem C4_key_is_case_insensitive_witness :
    getMetaContent "<meta name=\"Author\" content=\"ann\">" (asciiLowerStr "AUTHOR") =
      getMetaContent "<meta name=\"Author\" content=\"ann\">" "AUTHOR" :=
  C4_key_is_case_insensitive.1 "<meta name=\"Author\" content=\"ann\">" "AUTHOR" (by decide)

/-! ### Facts about safe characters and failing literal alignments -/

